import Mathlib

/-!
Verification of the KoNET answer-resolution and scoring pipeline
(`src/evaluator.py`).  The Python source is shallowly embedded below:
pure functions become Lean functions, the mutable `scores` / `result`
dictionaries become explicit state threaded through a fold, Python
exceptions (`ValueError` from `int`, `IndexError` from list indexing)
become an `Except` error type, and the external OpenAI comparator is an
uninterpreted function parameter.  File I/O (`load_json`, `save_json`),
`tqdm` progress display and the base64 image encoding are not modelled;
the embedding starts from the already-loaded submission list and answer
store, which is exactly the data the claims are about.  String
primitives (`split`, `join`, `in`, `int`, `lower`) are implemented
structurally over `List Char` so that the kernel can evaluate them on
concrete inputs.
-/

namespace KoNET

/-- Python exceptions that the embedded fragment can raise. -/
inductive PyError where
  | valueError
  | indexError
  deriving DecidableEq, Repr

/-- `leadMatch needle hay` is true when `needle` occurs at the head of
`hay` (element-wise equality). -/
def leadMatch [BEq α] : List α → List α → Bool
  | [], _ => true
  | _ :: _, [] => false
  | a :: as, b :: bs => a == b && leadMatch as bs

/-- `containsSeq hay needle` is true when `needle` occurs contiguously
somewhere in `hay`; models Python's `needle in hay` on strings. -/
def containsSeq [BEq α] : List α → List α → Bool
  | hay, needle =>
    if leadMatch needle hay then true
    else
      match hay with
      | [] => false
      | _ :: t => containsSeq t needle

/-- Python's `needle in hay` substring test. -/
def strContains (hay needle : String) : Bool :=
  containsSeq hay.data needle.data

/-- Python's `str.lower` (ASCII behaviour). -/
def strLower (s : String) : String := String.mk (s.data.map Char.toLower)

/-- `s.split(sep)` for a single-character separator, on char lists.
Always returns a nonempty list; `"a_b".split("_") = ["a", "b"]`. -/
def splitOnChar (sep : Char) : List Char → List (List Char)
  | [] => [[]]
  | a :: as =>
    let r := splitOnChar sep as
    if a == sep then [] :: r
    else
      match r with
      | [] => [[a]]
      | h :: t => (a :: h) :: t

/-- Python `submission_id.split("_")`. -/
def pySplitUnderscore (s : String) : List String :=
  (splitOnChar (Char.ofNat 95) s.data).map String.mk

/-- Python `"_".join(parts)`. -/
def joinUnderscore : List String → String
  | [] => ""
  | [s] => s
  | s :: rest => s ++ "_" ++ joinUnderscore rest

/-- Python whitespace as stripped by `int()`. -/
def isPySpace (c : Char) : Bool :=
  c == ' ' || c == '\t' || c == '\n' || c == '\r' || c == Char.ofNat 11 || c == Char.ofNat 12

/-- Strip leading and trailing whitespace from a char list. -/
def trimChars (l : List Char) : List Char :=
  (((l.dropWhile isPySpace).reverse.dropWhile isPySpace)).reverse

/-- Value of a nonempty all-digit char list, `none` otherwise. -/
def decDigits? (l : List Char) : Option Nat :=
  if l.isEmpty then none
  else if l.all Char.isDigit then
    some (l.foldl (fun acc c => acc * 10 + (c.toNat - 48)) 0)
  else none

/-- Model of Python `int(s)` (ASCII input): strip surrounding
whitespace, allow one optional sign, then a nonempty run of decimal
digits; anything else raises `ValueError` (here: `none`). -/
def pyInt? (s : String) : Option Int :=
  match trimChars s.data with
  | '-' :: rest => (decDigits? rest).map (fun n => -(n : Int))
  | '+' :: rest => (decDigits? rest).map (fun n => (n : Int))
  | t => (decDigits? t).map (fun n => (n : Int))

/-- `OFFSET_MAP` from `evaluator.py`: per-section numbering offsets. -/
def OFFSET_MAP : List (String × Int) :=
  [("kocsat_1st_KoreanLanguageMedia", 34),
   ("kocsat_1st_KoreanSpeechWriting", 34),
   ("kocsat_1st_MathematicsCalculus", 22),
   ("kocsat_1st_MathematicsGeometry", 22),
   ("kocsat_1st_MathematicsStatistics", 22)]

/-- `LISTENING_PARTS` from `evaluator.py`: ids auto-graded "Correct.". -/
def LISTENING_PARTS : List String :=
  ["kocsat_1st_English_01", "kocsat_1st_English_02", "kocsat_1st_English_03",
   "kocsat_1st_English_04", "kocsat_1st_English_05", "kocsat_1st_English_06",
   "kocsat_1st_English_07", "kocsat_1st_English_08", "kocsat_1st_English_09",
   "kocsat_1st_English_10", "kocsat_1st_English_11", "kocsat_1st_English_12",
   "kocsat_1st_English_13", "kocsat_1st_English_14", "kocsat_1st_English_15",
   "kocsat_1st_English_16", "kocsat_1st_English_17"]

/-- `CATEGORIES` from `evaluator.py`, in declared order. -/
def CATEGORIES : List String := ["KoEGED", "KoMGED", "KoHGED", "KoCSAT"]

/-- Python `d.get(k, dflt)` on an association list. -/
def dictGetD (d : List (String × α)) (k : String) (dflt : α) : α :=
  match d.find? (fun kv => kv.1 == k) with
  | some kv => kv.2
  | none => dflt

/-- Python `d[k]` lookup, `none` when the key is absent. -/
def dictFind (d : List (String × α)) (k : String) : Option α :=
  (d.find? (fun kv => kv.1 == k)).map (fun kv => kv.2)

/-- Python `d[k] = v`: replace the value of an existing key in place
(keeping insertion order), otherwise append the new binding. -/
def dictInsert (d : List (String × α)) (k : String) (v : α) : List (String × α) :=
  if d.any (fun kv => kv.1 == k) then
    d.map (fun kv => if kv.1 == k then (k, v) else kv)
  else d ++ [(k, v)]

/-- `OFFSET_MAP.get(prefix, 0)`. -/
def offsetGet (pfx : String) : Int := dictGetD OFFSET_MAP pfx 0

/-- `process_submission_id` from `evaluator.py`: split the id on `"_"`,
rejoin all segments but the last as the section prefix, parse the last
segment as an integer `n` (Python `int`, raising `ValueError` on
failure) and return `(prefix, n - OFFSET_MAP.get(prefix, 0) - 1)`. -/
def process_submission_id (submission_id : String) : Except PyError (String × Int) :=
  let parts := pySplitUnderscore submission_id
  let pfx := joinUnderscore parts.dropLast
  match pyInt? (parts.getLast?.getD "") with
  | none => .error .valueError
  | some n => .ok (pfx, n - offsetGet pfx - 1)

/-- The effective position of Python index `i` in a list of length
`len`: negative indices count from the end. -/
def pyWrap (len : Nat) (i : Int) : Int :=
  if i < 0 then i + len else i

/-- Python list indexing `l[i]`: a negative index counts from the end;
out of range raises `IndexError`. -/
def pyIndex (l : List α) (i : Int) : Except PyError α :=
  if h : 0 ≤ pyWrap l.length i ∧ (pyWrap l.length i).toNat < l.length then
    .ok (l.get ⟨(pyWrap l.length i).toNat, h.2⟩)
  else .error .indexError

/-- Python `str(v)` applied to a JSON answer entry, where `none` models
the Python `None` placeholder. -/
def str_of (v : Option String) : String :=
  match v with
  | none => "None"
  | some s => s

/-- The loaded `answers.json`: section prefix mapped to the ordered list
of ground-truth answers (an entry of `none` models a JSON `null`). -/
def AnswerStore := List (String × List (Option String))

/-- Line 145 of `evaluator.py`:
`str(answers.get(category_prefix, [None])[adjusted_index])` —
the list for the prefix (defaulting to the one-element list `[None]`)
indexed with Python semantics, then stringified. -/
def ground_truth (answers : AnswerStore) (pfx : String) (idx : Int) :
    Except PyError String :=
  (pyIndex (dictGetD answers pfx [none]) idx).map str_of

/-- One element of the loaded submissions JSON: `none` response models
an absent `"response"` key. -/
structure Submission where
  id : String
  response : Option String
  deriving DecidableEq, Repr

/-- `submission.get("response")` with Python falsiness: an absent key
and an empty string are both falsy, so the submission is skipped. -/
def hasResponse (s : Submission) : Bool :=
  match s.response with
  | none => false
  | some r => !(r == "")

/-- The response string as used after the falsiness check. -/
def getResponse (s : Submission) : String := (s.response).getD ""

/-- One category's counters: `acc` = correct, `cnt` = attempted. -/
structure Tally where
  acc : Nat
  cnt : Nat
  deriving DecidableEq, Repr

/-- A value of the `result` dictionary: either a per-item
`{answer, response, judgement}` record or the final `meta` tallies. -/
inductive Entry where
  | item (answer response judgement : String)
  | meta (scores : List (String × Tally))
  deriving DecidableEq, Repr

/-- The external comparator (`judgement_response`), abstracted as an
uninterpreted function of the submission id (which determines the
reference-image path), the ground truth, and the candidate response. -/
def Judge := String → String → String → String

/-- The accumulated evaluation state: the `scores` dictionary and the
`result` dictionary of `evaluate_KoNET`. -/
structure EvalState where
  scores : List (String × Tally)
  result : List (String × Entry)
  deriving DecidableEq, Repr

/-- `scores = {category: {"acc": 0, "cnt": 0} for category in CATEGORIES}`. -/
def initScores : List (String × Tally) :=
  CATEGORIES.map (fun c => (c, ⟨0, 0⟩))

/-- The initial state of the loop: fresh scores, empty result. -/
def initState : EvalState := ⟨initScores, []⟩

/-- Lines 156-157: the first category whose lowercased label occurs in
the (un-lowercased) submission id; `category.lower() in submission["id"]`. -/
def classify (id : String) : Option String :=
  CATEGORIES.find? (fun c => strContains id (strLower c))

/-- Lines 158-160: bump a tally — `cnt += 1`, and `acc += 1` iff the
judgement is exactly `"Correct."`. -/
def bumpTally (t : Tally) (judgement : String) : Tally :=
  ⟨if judgement == "Correct." then t.acc + 1 else t.acc, t.cnt + 1⟩

/-- Lines 156-161: find the first matching category (the loop `break`s
after it) and bump only its tally. -/
def updateScores (scores : List (String × Tally)) (id : String)
    (judgement : String) : List (String × Tally) :=
  match classify id with
  | none => scores
  | some c => scores.map (fun kv => if kv.1 == c then (kv.1, bumpTally kv.2 judgement) else kv)

/-- Lines 147-154: the verdict — `"Correct."` for listening-part ids
without contacting the comparator, otherwise the comparator's output. -/
def computeJudgement (judge : Judge) (id gt response : String) : String :=
  if LISTENING_PARTS.contains id then "Correct." else judge id gt response

/-- The body of the `for submission in submissions` loop (lines
141-167): skip falsy responses; otherwise parse the id, fetch the
ground truth, judge, update the matching tally and record the per-item
entry.  A `ValueError` or `IndexError` aborts the whole run, as the
loop body is not wrapped in any handler. -/
def processOne (judge : Judge) (answers : AnswerStore) (st : EvalState)
    (sub : Submission) : Except PyError EvalState :=
  if hasResponse sub then do
    let pr ← process_submission_id sub.id
    let gt ← ground_truth answers pr.1 pr.2
    let judgement := computeJudgement judge sub.id gt (getResponse sub)
    .ok ⟨updateScores st.scores sub.id judgement,
         dictInsert st.result sub.id (.item gt (getResponse sub) judgement)⟩
  else .ok st

/-- The whole submission loop, threading the state. -/
def evalLoop (judge : Judge) (answers : AnswerStore) :
    List Submission → EvalState → Except PyError EvalState
  | [], st => .ok st
  | sub :: rest, st => do
      let st' ← processOne judge answers st sub
      evalLoop judge answers rest st'

/-- The loop run from the initial state. -/
def runEval (judge : Judge) (answers : AnswerStore) (subs : List Submission) :
    Except PyError EvalState :=
  evalLoop judge answers subs initState

/-- Line 169: `result["meta"] = scores`, the dictionary that is then
serialized to `evaluation_output.json`. -/
def finalResult (st : EvalState) : List (String × Entry) :=
  dictInsert st.result "meta" (.meta st.scores)

/-- Line 173: `sum(scores[cat]["acc"] for cat in CATEGORIES)`. -/
def total_correct (scores : List (String × Tally)) : Nat :=
  (CATEGORIES.map (fun c => (dictGetD scores c ⟨0, 0⟩).acc)).sum

/-- Line 174: `sum(scores[cat]["cnt"] for cat in CATEGORIES)`. -/
def total_count (scores : List (String × Tally)) : Nat :=
  (CATEGORIES.map (fun c => (dictGetD scores c ⟨0, 0⟩).cnt)).sum

/-- Line 175: `100 * total_correct / total_count if total_count else 0`,
with Python's true division modelled over the rationals. -/
def konet_score (scores : List (String × Tally)) : Rat :=
  if total_count scores ≠ 0 then
    100 * (total_correct scores : Rat) / (total_count scores : Rat)
  else 0

/-- Line 184: `100 * acc / cnt if cnt else 0` for one category. -/
def category_score (scores : List (String × Tally)) (c : String) : Rat :=
  let t := dictGetD scores c ⟨0, 0⟩
  if t.cnt ≠ 0 then 100 * (t.acc : Rat) / (t.cnt : Rat) else 0

/-- The classifier as the specification words it: case-INsensitive
substring containment of the category label in the id, first match
first.  Declared only to be compared against `classify`, the
classifier the code actually implements. -/
def classifySpec (id : String) : Option String :=
  CATEGORIES.find? (fun c => strContains (strLower id) (strLower c))

/-- The last underscore-separated segment of a submission id. -/
def lastSegment (id : String) : String :=
  ((pySplitUnderscore id).getLast?).getD ""

/-- All underscore-separated segments of a submission id except the
last, rejoined with underscores: the section prefix. -/
def sectionPfx (id : String) : String :=
  joinUnderscore (pySplitUnderscore id).dropLast

/-! ### Association-list (Python dict) lemmas -/

theorem dictFind_dictInsert_self (d : List (String × α)) (k : String) (v : α) :
    dictFind (dictInsert d k v) k = some v := by
  unfold dictFind dictInsert
  by_cases h : d.any (fun kv => kv.1 == k)
  · rw [if_pos h, List.find?_map]
    have hpf : ((fun kv : String × α => kv.1 == k) ∘
        fun kv => if kv.1 == k then (k, v) else kv) =
        (fun kv : String × α => kv.1 == k) := by
      funext kv
      by_cases hk : kv.1 == k
      · rw [Function.comp_apply, if_pos hk]
        simp [hk]
      · rw [Function.comp_apply, if_neg hk]
    rw [hpf]
    obtain ⟨kv', hkv'⟩ := Option.isSome_iff_exists.mp
      (List.find?_isSome.mpr (List.any_eq_true.mp h))
    have hkk : kv'.1 = k := by simpa [beq_iff_eq] using List.find?_some hkv'
    rw [hkv']
    simp [hkk]
  · rw [if_neg h, List.find?_append]
    have hnone : List.find? (fun kv : String × α => kv.1 == k) d = none := by
      rw [List.find?_eq_none]
      intro kv hkv
      simp only [List.any_eq_true, not_exists, not_and] at h
      exact h kv hkv
    rw [hnone]
    simp [List.find?]

theorem dictFind_dictInsert_ne (d : List (String × α)) (k k' : String) (v : α)
    (hne : k' ≠ k) : dictFind (dictInsert d k v) k' = dictFind d k' := by
  unfold dictFind dictInsert
  by_cases h : d.any (fun kv => kv.1 == k)
  · rw [if_pos h, List.find?_map]
    have hpf : ((fun kv : String × α => kv.1 == k') ∘
        fun kv => if kv.1 == k then (k, v) else kv) =
        (fun kv : String × α => kv.1 == k') := by
      funext kv
      by_cases hk : kv.1 == k
      · have hkk : kv.1 = k := by simpa [beq_iff_eq] using hk
        rw [Function.comp_apply, if_pos hk]
        simp [hkk]
      · rw [Function.comp_apply, if_neg hk]
    rw [hpf]
    cases hf : List.find? (fun kv : String × α => kv.1 == k') d with
    | none => rfl
    | some kv' =>
      have hk' : kv'.1 = k' := by simpa [beq_iff_eq] using List.find?_some hf
      simp [hk', hne]
  · rw [if_neg h, List.find?_append]
    have hlast : List.find? (fun kv : String × α => kv.1 == k') [(k, v)] = none := by
      have : ¬ (k == k') = true := by simp [beq_iff_eq]; exact Ne.symm hne
      simp [List.find?, this]
    rw [hlast]
    cases List.find? (fun kv : String × α => kv.1 == k') d <;> rfl

theorem mem_dictInsert_key (d : List (String × α)) (k : String) (v : α)
    (e : α) (hmem : (k, e) ∈ dictInsert d k v) : e = v := by
  unfold dictInsert at hmem
  by_cases h : d.any (fun kv => kv.1 == k)
  · rw [if_pos h] at hmem
    obtain ⟨kv, _, heq⟩ := List.mem_map.mp hmem
    by_cases hk : kv.1 == k
    · rw [if_pos hk] at heq
      exact ((Prod.mk.injEq _ _ _ _).mp heq).2.symm
    · rw [if_neg hk] at heq
      rw [heq] at hk
      simp at hk
  · rw [if_neg h] at hmem
    rcases List.mem_append.mp hmem with hin | heq
    · exfalso
      simp only [List.any_eq_true, not_exists, not_and] at h
      exact h (k, e) hin (by simp)
    · exact ((Prod.mk.injEq _ _ _ _).mp (List.mem_singleton.mp heq)).2

/-! ### C1: identifier parse and offset adjustment -/

/-- C1.  For every submission id whose last underscore-separated
segment parses as an integer `n`, `process_submission_id` returns the
pair (prefix, `n - offset(prefix) - 1`), where the prefix is all
segments but the last rejoined with underscores and the offset defaults
to 0 for prefixes absent from `OFFSET_MAP`; in particular the id
`"kocsat_1st_MathematicsCalculus_23"` yields adjusted index 0. -/
theorem process_id_offset_spec :
    (∀ (id : String) (n : Int), pyInt? (lastSegment id) = some n →
      process_submission_id id = .ok (sectionPfx id, n - offsetGet (sectionPfx id) - 1))
    ∧ process_submission_id "kocsat_1st_MathematicsCalculus_23" =
        .ok ("kocsat_1st_MathematicsCalculus", 0)
    ∧ (∀ p, OFFSET_MAP.find? (fun kv => kv.1 == p) = none → offsetGet p = 0) := by
  refine ⟨?_, rfl, ?_⟩
  · intro id n h
    unfold process_submission_id
    unfold lastSegment at h
    simp only [h]
    rfl
  · intro p hp
    unfold offsetGet dictGetD
    simp [hp]

/-- Witness for C1 at the concrete id `"kocsat_1st_English_08"`. -/
theorem process_id_offset_spec_witness :
    process_submission_id "kocsat_1st_English_08" = .ok ("kocsat_1st_English", 7) := by
  have h := process_id_offset_spec.1 "kocsat_1st_English_08" 8 rfl
  exact h.trans rfl

/-! ### C2: when the identifier parser fails -/

/-- C2 counterexample.  The claim says the parser fails whenever the id
has no separator; but the id `"7"` contains no `"_"` and the parse
succeeds (with empty prefix): `int(parts[-1])` never sees the missing
separator. -/
theorem parse_no_separator_counterexample :
    strContains "7" "_" = false ∧ process_submission_id "7" = .ok ("", 6) :=
  ⟨rfl, rfl⟩

/-- C2 amended.  The parser fails (with Python's `ValueError`) exactly
when the last underscore-separated segment does not parse as an
integer; an id with no separator but integer content succeeds, with the
whole id as the number and the empty string as the prefix. -/
theorem parse_fail_iff (id : String) :
    (process_submission_id id = .error PyError.valueError ↔
      pyInt? (lastSegment id) = none)
    ∧ (∀ n : Int, pyInt? (lastSegment id) = some n →
        process_submission_id id =
          .ok (sectionPfx id, n - offsetGet (sectionPfx id) - 1)) := by
  constructor
  · unfold process_submission_id lastSegment
    cases h : pyInt? (((pySplitUnderscore id).getLast?).getD "") with
    | none => simp [h]
    | some n => simp [h]
  · intro n h
    unfold process_submission_id
    unfold lastSegment at h
    simp only [h]
    rfl

/-- Witness for C2's amended statement: a non-numeric last segment
fails, a numeric one succeeds. -/
theorem parse_fail_iff_witness :
    process_submission_id "abc_xyz" = .error PyError.valueError ∧
    process_submission_id "abc_5" = .ok ("abc", 4) :=
  ⟨(parse_fail_iff "abc_xyz").1.mpr rfl,
   ((parse_fail_iff "abc_5").2 5 rfl).trans rfl⟩

/-! ### C3: answer-store lookup -/

theorem except_map_error_iff (f : α → β) (x : Except PyError α) (e : PyError) :
    x.map f = .error e ↔ x = .error e := by
  cases x <;> simp [Except.map]

theorem pyIndex_error_iff (l : List α) (i : Int) :
    pyIndex l i = .error PyError.indexError ↔
      i < -(l.length : Int) ∨ (l.length : Int) ≤ i := by
  unfold pyIndex pyWrap
  by_cases hi : i < 0
  · simp only [hi, if_true]
    split
    · next h => exact iff_of_false (by simp) (by omega)
    · next h => exact iff_of_true rfl (by omega)
  · simp only [hi, if_false]
    split
    · next h => exact iff_of_false (by simp) (by omega)
    · next h => exact iff_of_true rfl (by omega)

theorem pyIndex_ok (l : List α) (i : Int) (j : Nat) (hj : j < l.length)
    (hij : i = (j : Int) ∨ i = (j : Int) - (l.length : Int)) :
    pyIndex l i = .ok (l.get ⟨j, hj⟩) := by
  unfold pyIndex pyWrap
  have hw : (if i < 0 then i + (l.length : Int) else i) = (j : Int) := by
    rcases hij with h | h <;> subst h <;> split <;> omega
  have hwt : (if i < 0 then i + (l.length : Int) else i).toNat = j := by
    rw [hw]; omega
  have hcond : 0 ≤ (if i < 0 then i + (l.length : Int) else i) ∧
      (if i < 0 then i + (l.length : Int) else i).toNat < l.length := by
    constructor
    · omega
    · omega
  rw [dif_pos hcond]
  subst hwt
  rfl

/-- C3 counterexample.  The claim says the lookup fails with a
missing-answer error when the prefix is absent and with an
index-out-of-range error when the adjusted index is negative; but with
an absent prefix and adjusted index 0 the code returns the string
`"None"` (the stringified default `[None]` entry), and a negative index
within Python's wrap-around range returns an element from the end of
the list. -/
theorem answer_lookup_counterexample :
    dictFind ([] : AnswerStore) "kocsat_9th_Unknown" = none ∧
    ground_truth [] "kocsat_9th_Unknown" 0 = .ok "None" ∧
    ground_truth [("p", [some "A", some "B"])] "p" (-1) = .ok "B" :=
  ⟨rfl, rfl, rfl⟩

/-- C3 amended.  The lookup indexes the prefix's answer list, taking
the one-element list `[None]` when the prefix is absent from the store;
it raises `IndexError` exactly when the adjusted index is ≥ the list
length or < −length, and otherwise returns the stringified element at
the (wrap-around) position — so an absent prefix fails only when the
index is outside {−1, 0}, and a negative in-range index returns an
element counted from the end. -/
theorem answer_lookup_spec (answers : AnswerStore) (pfx : String) (idx : Int) :
    (ground_truth answers pfx idx = .error PyError.indexError ↔
      idx < -((dictGetD answers pfx [none]).length : Int) ∨
        ((dictGetD answers pfx [none]).length : Int) ≤ idx)
    ∧ ∀ (j : Nat) (hj : j < (dictGetD answers pfx [none]).length),
        (idx = (j : Int) ∨ idx = (j : Int) - ((dictGetD answers pfx [none]).length : Int)) →
        ground_truth answers pfx idx =
          .ok (str_of ((dictGetD answers pfx [none]).get ⟨j, hj⟩)) := by
  constructor
  · unfold ground_truth
    rw [except_map_error_iff]
    exact pyIndex_error_iff _ _
  · intro j hj hij
    unfold ground_truth
    rw [pyIndex_ok _ _ j hj hij]
    rfl

/-- Witness for C3's amended statement on a two-element store entry:
index 5 is out of range, index 1 returns the second answer. -/
theorem answer_lookup_spec_witness :
    ground_truth [("p", [some "A", some "B"])] "p" 5 = .error PyError.indexError ∧
    ground_truth [("p", [some "A", some "B"])] "p" 1 = .ok "B" := by
  constructor
  · exact (answer_lookup_spec [("p", [some "A", some "B"])] "p" 5).1.mpr (by decide)
  · have h := (answer_lookup_spec [("p", [some "A", some "B"])] "p" 1).2 1 (by decide)
      (Or.inl rfl)
    exact h.trans rfl

/-! ### Score-table and loop lemmas -/

theorem updateScores_none (scores : List (String × Tally)) (id j : String)
    (hc : classify id = none) : updateScores scores id j = scores := by
  unfold updateScores
  rw [hc]

theorem dictFind_updateScores_self (scores : List (String × Tally))
    (id judgement c : String) (hc : classify id = some c) :
    dictFind (updateScores scores id judgement) c =
      (dictFind scores c).map (fun t => bumpTally t judgement) := by
  unfold updateScores dictFind
  rw [hc, List.find?_map]
  have hpf : ((fun kv : String × Tally => kv.1 == c) ∘
      fun kv => if kv.1 == c then (kv.1, bumpTally kv.2 judgement) else kv) =
      (fun kv : String × Tally => kv.1 == c) := by
    funext kv
    by_cases hk : kv.1 == c
    · rw [Function.comp_apply, if_pos hk]
    · rw [Function.comp_apply, if_neg hk]
  rw [hpf]
  cases hf : List.find? (fun kv : String × Tally => kv.1 == c) scores with
  | none => rfl
  | some kv' =>
    have hkk : kv'.1 = c := by simpa [beq_iff_eq] using List.find?_some hf
    simp [hkk]

theorem dictFind_updateScores_ne (scores : List (String × Tally))
    (id judgement c' : String) (h : ∀ c, classify id = some c → c' ≠ c) :
    dictFind (updateScores scores id judgement) c' = dictFind scores c' := by
  unfold updateScores
  cases hc : classify id with
  | none => rfl
  | some c =>
    have hne : c' ≠ c := h c hc
    unfold dictFind
    rw [List.find?_map]
    have hpf : ((fun kv : String × Tally => kv.1 == c') ∘
        fun kv => if kv.1 == c then (kv.1, bumpTally kv.2 judgement) else kv) =
        (fun kv : String × Tally => kv.1 == c') := by
      funext kv
      by_cases hk : kv.1 == c
      · rw [Function.comp_apply, if_pos hk]
      · rw [Function.comp_apply, if_neg hk]
    rw [hpf]
    cases hf : List.find? (fun kv : String × Tally => kv.1 == c') scores with
    | none => rfl
    | some kv' =>
      have hk' : kv'.1 = c' := by simpa [beq_iff_eq] using List.find?_some hf
      simp [hk', hne]

/-- Inversion of a successful loop-body step: it must have parsed the
id, fetched a ground truth, and produced exactly the updated state. -/
theorem processOne_ok_elim (judge : Judge) (answers : AnswerStore)
    (st st' : EvalState) (sub : Submission)
    (hresp : hasResponse sub = true)
    (hok : processOne judge answers st sub = .ok st') :
    ∃ pr gt, process_submission_id sub.id = .ok pr ∧
      ground_truth answers pr.1 pr.2 = .ok gt ∧
      st' = ⟨updateScores st.scores sub.id
               (computeJudgement judge sub.id gt (getResponse sub)),
             dictInsert st.result sub.id
               (.item gt (getResponse sub)
                 (computeJudgement judge sub.id gt (getResponse sub)))⟩ := by
  unfold processOne at hok
  rw [if_pos hresp] at hok
  cases hpr : process_submission_id sub.id with
  | error e =>
    rw [hpr] at hok
    simp [Bind.bind, Except.bind] at hok
  | ok pr =>
    rw [hpr] at hok
    simp only [Bind.bind, Except.bind] at hok
    cases hgt : ground_truth answers pr.1 pr.2 with
    | error e =>
      rw [hgt] at hok
      simp at hok
    | ok gt =>
      rw [hgt] at hok
      simp only [Except.ok.injEq] at hok
      exact ⟨pr, gt, rfl, hgt, hok.symm⟩

/-! ### C4: listening allow-list short-circuit -/

/-- C4.  For a submission whose id is on the listening allow-list, the
loop body's outcome does not depend on the external comparator at all
(any two comparators give the same result), and whenever it succeeds
with a non-empty response the recorded verdict is exactly the literal
`"Correct."`, regardless of the answer store and the response. -/
theorem listening_auto_correct (j1 j2 : Judge) (answers : AnswerStore)
    (st : EvalState) (sub : Submission)
    (hmem : LISTENING_PARTS.contains sub.id = true) :
    processOne j1 answers st sub = processOne j2 answers st sub ∧
    (∀ st', hasResponse sub = true → processOne j1 answers st sub = .ok st' →
      ∃ gt, dictFind st'.result sub.id =
        some (Entry.item gt (getResponse sub) "Correct.")) := by
  have hj1 : ∀ gt r, computeJudgement j1 sub.id gt r = "Correct." := by
    intro gt r
    unfold computeJudgement
    rw [if_pos hmem]
  have hj2 : ∀ gt r, computeJudgement j2 sub.id gt r = "Correct." := by
    intro gt r
    unfold computeJudgement
    rw [if_pos hmem]
  constructor
  · unfold processOne
    by_cases hresp : hasResponse sub = true
    · rw [if_pos hresp, if_pos hresp]
      simp only [hj1, hj2]
    · rw [if_neg hresp, if_neg hresp]
  · intro st' hresp hok
    obtain ⟨pr, gt, hpr, hgt, hst'⟩ := processOne_ok_elim j1 answers st st' sub hresp hok
    refine ⟨gt, ?_⟩
    rw [hst']
    rw [hj1 gt (getResponse sub)]
    exact dictFind_dictInsert_self _ _ _

/-- Witness for C4 at the listening id `"kocsat_1st_English_01"` with
two different comparators and an empty answer store. -/
theorem listening_auto_correct_witness :
    processOne (fun _ _ _ => "Incorrect.") [] initState
        ⟨"kocsat_1st_English_01", some "B"⟩ =
      processOne (fun _ _ _ => "SomeOtherVerdict") [] initState
        ⟨"kocsat_1st_English_01", some "B"⟩ ∧
    ∃ gt,
      dictFind (⟨[("KoEGED", ⟨0, 0⟩), ("KoMGED", ⟨0, 0⟩), ("KoHGED", ⟨0, 0⟩),
          ("KoCSAT", ⟨1, 1⟩)],
          [("kocsat_1st_English_01", Entry.item "None" "B" "Correct.")]⟩ : EvalState).result
        "kocsat_1st_English_01" = some (Entry.item gt "B" "Correct.") := by
  have h := listening_auto_correct (fun _ _ _ => "Incorrect.")
    (fun _ _ _ => "SomeOtherVerdict") [] initState ⟨"kocsat_1st_English_01", some "B"⟩ rfl
  exact ⟨h.1, h.2 _ rfl rfl⟩

/-! ### C5: tally increments -/

/-- C5.  When the loop body succeeds on a submission with a non-empty
response whose id matches a category `c` (with tally `t` in the score
table), the per-item verdict is recorded, `c`'s attempted count grows
by exactly 1, and its correct count grows by 1 iff the verdict is the
exact literal `"Correct."` — so a caught error's raw text (≠
`"Correct."`) counts as an attempt but never as correct. -/
theorem tally_increment_spec (judge : Judge) (answers : AnswerStore)
    (st st' : EvalState) (sub : Submission) (c : String) (t : Tally)
    (hok : processOne judge answers st sub = .ok st')
    (hresp : hasResponse sub = true)
    (hc : classify sub.id = some c)
    (ht : dictFind st.scores c = some t) :
    ∃ gt verdict,
      dictFind st'.result sub.id = some (Entry.item gt (getResponse sub) verdict) ∧
      dictFind st'.scores c = some (bumpTally t verdict) ∧
      (bumpTally t verdict).cnt = t.cnt + 1 ∧
      ((bumpTally t verdict).acc = t.acc + 1 ↔ verdict = "Correct.") ∧
      ((bumpTally t verdict).acc = t.acc ↔ verdict ≠ "Correct.") := by
  obtain ⟨pr, gt, hpr, hgt, hst'⟩ := processOne_ok_elim judge answers st st' sub hresp hok
  subst hst'
  refine ⟨gt, computeJudgement judge sub.id gt (getResponse sub),
    dictFind_dictInsert_self _ _ _, ?_, rfl, ?_, ?_⟩
  · rw [dictFind_updateScores_self st.scores sub.id _ c hc, ht]
    rfl
  · unfold bumpTally
    by_cases hv : computeJudgement judge sub.id gt (getResponse sub) = "Correct."
    · simp [hv]
    · simp only [hv, iff_false]
      have : (computeJudgement judge sub.id gt (getResponse sub) == "Correct.") = false := by
        simp [hv]
      rw [this]
      simp
  · unfold bumpTally
    by_cases hv : computeJudgement judge sub.id gt (getResponse sub) = "Correct."
    · simp only [hv, ne_eq, not_true_eq_false, iff_false]
      simp
    · have : (computeJudgement judge sub.id gt (getResponse sub) == "Correct.") = false := by
        simp [hv]
      rw [this]
      simp [hv]

/-- Witness for C5: one non-listening KoEGED submission judged
`"Incorrect."` bumps attempted but not correct. -/
theorem tally_increment_spec_witness :
    ∃ gt verdict,
      dictFind [("koeged_Korean_1", Entry.item "3" "A" "Incorrect.")]
          "koeged_Korean_1" = some (Entry.item gt "A" verdict) ∧
      dictFind [("KoEGED", (⟨0, 1⟩ : Tally)), ("KoMGED", ⟨0, 0⟩), ("KoHGED", ⟨0, 0⟩),
          ("KoCSAT", ⟨0, 0⟩)] "KoEGED" = some (bumpTally ⟨0, 0⟩ verdict) ∧
      (bumpTally (⟨0, 0⟩ : Tally) verdict).cnt = 0 + 1 ∧
      ((bumpTally (⟨0, 0⟩ : Tally) verdict).acc = 0 + 1 ↔ verdict = "Correct.") ∧
      ((bumpTally (⟨0, 0⟩ : Tally) verdict).acc = 0 ↔ verdict ≠ "Correct.") :=
  tally_increment_spec (fun _ _ _ => "Incorrect.") [("koeged_Korean", [some "3"])]
    initState
    ⟨[("KoEGED", ⟨0, 1⟩), ("KoMGED", ⟨0, 0⟩), ("KoHGED", ⟨0, 0⟩), ("KoCSAT", ⟨0, 0⟩)],
     [("koeged_Korean_1", Entry.item "3" "A" "Incorrect.")]⟩
    ⟨"koeged_Korean_1", some "A"⟩ "KoEGED" ⟨0, 0⟩ rfl rfl rfl rfl

/-! ### C9: category classification -/

theorem head?_filter_eq_find? (p : α → Bool) (l : List α) :
    (l.filter p).head? = l.find? p := by
  induction l with
  | nil => rfl
  | cons a t ih =>
    by_cases hp : p a
    · simp [List.filter_cons, List.find?_cons, hp]
    · simp [List.filter_cons, List.find?_cons, hp, ih]

/-- C9 counterexample.  The claim says classification is
case-insensitive; the code lowercases only the category label, not the
id.  On the id `"KoEGED_1"` the spec's case-insensitive classifier
picks `KoEGED`, but the code's classifier matches nothing, so a
processed submission with that id changes no tally (while its entry is
still recorded). -/
theorem classifier_case_counterexample :
    classify "KoEGED_1" = none ∧
    classifySpec "KoEGED_1" = some "KoEGED" ∧
    processOne (fun _ _ _ => "Correct.") [("KoEGED", [some "1"])] initState
        ⟨"KoEGED_1", some "1"⟩ =
      .ok ⟨initScores, [("KoEGED_1", Entry.item "1" "1" "Correct.")]⟩ :=
  ⟨rfl, rfl, rfl⟩

/-- C9 amended.  Classification assigns the first category in the
declared order whose LOWERCASED label occurs in the id as a
case-sensitive substring (the id itself is not lowercased); a
successful loop-body step changes no tally of any other category, and
when no lowered label occurs in the id it changes no tally at all while
the `{answer, response, judgement}` entry is still recorded in the
result mapping. -/
theorem classifier_spec (judge : Judge) (answers : AnswerStore)
    (st st' : EvalState) (sub : Submission)
    (hok : processOne judge answers st sub = .ok st')
    (hresp : hasResponse sub = true) :
    classify sub.id =
      (CATEGORIES.filter (fun c => strContains sub.id (strLower c))).head? ∧
    (∀ c, classify sub.id = some c →
      ∀ c', c' ≠ c → dictFind st'.scores c' = dictFind st.scores c') ∧
    (classify sub.id = none →
      st'.scores = st.scores ∧
      ∃ gt verdict, dictFind st'.result sub.id =
        some (Entry.item gt (getResponse sub) verdict)) := by
  obtain ⟨pr, gt, hpr, hgt, hst'⟩ := processOne_ok_elim judge answers st st' sub hresp hok
  subst hst'
  refine ⟨(head?_filter_eq_find? _ _).symm, ?_, ?_⟩
  · intro c hc c' hne
    refine dictFind_updateScores_ne st.scores sub.id _ c' ?_
    intro c0 hc0
    have : c0 = c := Option.some.inj (hc0.symm.trans hc)
    rw [this]
    exact hne
  · intro hc
    exact ⟨updateScores_none st.scores sub.id _ hc,
      gt, computeJudgement judge sub.id gt (getResponse sub),
      dictFind_dictInsert_self _ _ _⟩

/-- Witness for C9's amended statement on an id matching no category. -/
theorem classifier_spec_witness :
    classify "none_match_1" =
      (CATEGORIES.filter (fun c => strContains "none_match_1" (strLower c))).head? ∧
    (⟨initScores, [("none_match_1", Entry.item "None" "A" "Correct.")]⟩ : EvalState).scores
      = initState.scores ∧
    ∃ gt verdict,
      dictFind
        (⟨initScores, [("none_match_1", Entry.item "None" "A" "Correct.")]⟩ : EvalState).result
        "none_match_1" = some (Entry.item gt "A" verdict) := by
  have h := classifier_spec (fun _ _ _ => "Correct.") [] initState
    ⟨initScores, [("none_match_1", Entry.item "None" "A" "Correct.")]⟩
    ⟨"none_match_1", some "A"⟩ rfl rfl
  exact ⟨h.1, (h.2.2 rfl).1, (h.2.2 rfl).2⟩

/-! ### C6: correct ≤ attempted invariant -/

theorem bumpTally_mono (t : Tally) (j : String) (h : t.acc ≤ t.cnt) :
    (bumpTally t j).acc ≤ (bumpTally t j).cnt := by
  unfold bumpTally
  by_cases hv : (j == "Correct.") = true <;> simp [hv] <;> omega

theorem updateScores_inv (scores : List (String × Tally)) (id j : String)
    (h : ∀ kv ∈ scores, kv.2.acc ≤ kv.2.cnt) :
    ∀ kv ∈ updateScores scores id j, kv.2.acc ≤ kv.2.cnt := by
  unfold updateScores
  cases hc : classify id with
  | none => exact h
  | some c =>
    intro kv hkv
    obtain ⟨kv0, hkv0, heq⟩ := List.mem_map.mp hkv
    by_cases hk : kv0.1 == c
    · rw [if_pos hk] at heq
      rw [← heq]
      exact bumpTally_mono _ _ (h kv0 hkv0)
    · rw [if_neg hk] at heq
      rw [← heq]
      exact h kv0 hkv0

theorem processOne_inv (judge : Judge) (answers : AnswerStore)
    (st st' : EvalState) (sub : Submission)
    (hok : processOne judge answers st sub = .ok st')
    (h : ∀ kv ∈ st.scores, kv.2.acc ≤ kv.2.cnt) :
    ∀ kv ∈ st'.scores, kv.2.acc ≤ kv.2.cnt := by
  by_cases hresp : hasResponse sub = true
  · obtain ⟨pr, gt, hpr, hgt, hst'⟩ := processOne_ok_elim judge answers st st' sub hresp hok
    subst hst'
    exact updateScores_inv _ _ _ h
  · unfold processOne at hok
    rw [if_neg hresp] at hok
    simp only [Except.ok.injEq] at hok
    rw [← hok]
    exact h

theorem evalLoop_inv (judge : Judge) (answers : AnswerStore) (subs : List Submission) :
    ∀ st st', evalLoop judge answers subs st = .ok st' →
      (∀ kv ∈ st.scores, kv.2.acc ≤ kv.2.cnt) →
      ∀ kv ∈ st'.scores, kv.2.acc ≤ kv.2.cnt := by
  induction subs with
  | nil =>
    intro st st' hok h
    unfold evalLoop at hok
    simp only [Except.ok.injEq] at hok
    rw [← hok]
    exact h
  | cons sub rest ih =>
    intro st st' hok h
    unfold evalLoop at hok
    cases hone : processOne judge answers st sub with
    | error e =>
      rw [hone] at hok
      simp [Bind.bind, Except.bind] at hok
    | ok st1 =>
      rw [hone] at hok
      simp only [Bind.bind, Except.bind] at hok
      exact ih st1 st' hok (processOne_inv judge answers st st1 sub hone h)

/-- C6.  After any complete run (any submissions, any comparator
behaviour), every category tally satisfies `0 ≤ correct ≤ attempted`,
and so do the overall sums. -/
theorem correct_le_attempted (judge : Judge) (answers : AnswerStore)
    (subs : List Submission) (st' : EvalState)
    (hok : runEval judge answers subs = .ok st') :
    (∀ kv ∈ st'.scores, 0 ≤ kv.2.acc ∧ kv.2.acc ≤ kv.2.cnt) ∧
    0 ≤ total_correct st'.scores ∧
    total_correct st'.scores ≤ total_count st'.scores := by
  have hinv : ∀ kv ∈ st'.scores, kv.2.acc ≤ kv.2.cnt :=
    evalLoop_inv judge answers subs initState st' hok (by decide)
  refine ⟨fun kv hkv => ⟨Nat.zero_le _, hinv kv hkv⟩, Nat.zero_le _, ?_⟩
  unfold total_correct total_count
  apply List.sum_le_sum
  intro c _
  unfold dictGetD
  cases hf : List.find? (fun kv => kv.1 == c) st'.scores with
  | none => exact le_refl 0
  | some kv => exact hinv kv (List.mem_of_find?_eq_some hf)

/-- Witness for C6 on a concrete one-submission run. -/
theorem correct_le_attempted_witness :
    (∀ kv ∈ ([("KoEGED", (⟨0, 1⟩ : Tally)), ("KoMGED", ⟨0, 0⟩), ("KoHGED", ⟨0, 0⟩),
        ("KoCSAT", ⟨0, 0⟩)] : List (String × Tally)), 0 ≤ kv.2.acc ∧ kv.2.acc ≤ kv.2.cnt) ∧
    0 ≤ total_correct [("KoEGED", ⟨0, 1⟩), ("KoMGED", ⟨0, 0⟩), ("KoHGED", ⟨0, 0⟩),
        ("KoCSAT", ⟨0, 0⟩)] ∧
    total_correct [("KoEGED", ⟨0, 1⟩), ("KoMGED", ⟨0, 0⟩), ("KoHGED", ⟨0, 0⟩),
        ("KoCSAT", ⟨0, 0⟩)] ≤
      total_count [("KoEGED", ⟨0, 1⟩), ("KoMGED", ⟨0, 0⟩), ("KoHGED", ⟨0, 0⟩),
        ("KoCSAT", ⟨0, 0⟩)] := by
  have h := correct_le_attempted (fun _ _ _ => "Incorrect.")
    [("koeged_Korean", [some "3"])] [⟨"koeged_Korean_1", some "A"⟩]
    ⟨[("KoEGED", ⟨0, 1⟩), ("KoMGED", ⟨0, 0⟩), ("KoHGED", ⟨0, 0⟩), ("KoCSAT", ⟨0, 0⟩)],
     [("koeged_Korean_1", Entry.item "3" "A" "Incorrect.")]⟩ rfl
  exact h

/-! ### C7: empty or absent responses are skipped -/

/-- C7.  A submission with an empty or absent response leaves the state
exactly as it was (no tally change, no per-item entry), and deleting it
from any position of the input list does not change the run's result. -/
theorem empty_response_frame (judge : Judge) (answers : AnswerStore)
    (sub : Submission) (hresp : hasResponse sub = false) :
    (∀ st, processOne judge answers st sub = .ok st) ∧
    (∀ xs ys st, evalLoop judge answers (xs ++ sub :: ys) st =
      evalLoop judge answers (xs ++ ys) st) := by
  have hone : ∀ st, processOne judge answers st sub = .ok st := by
    intro st
    unfold processOne
    rw [if_neg (by simp [hresp])]
  refine ⟨hone, ?_⟩
  intro xs
  induction xs with
  | nil =>
    intro ys st
    simp only [List.nil_append]
    unfold evalLoop
    rw [hone st]
    simp only [Bind.bind, Except.bind]
    cases ys <;> rfl
  | cons x xs ih =>
    intro ys st
    simp only [List.cons_append]
    unfold evalLoop
    cases processOne judge answers st x with
    | error e => simp [Bind.bind, Except.bind]
    | ok st1 =>
      simp only [Bind.bind, Except.bind]
      exact ih ys st1

/-- Witness for C7: an empty-response submission is a no-op and its
removal from a concrete three-element run changes nothing. -/
theorem empty_response_frame_witness :
    processOne (fun _ _ _ => "X") [] initState ⟨"koeged_1", some ""⟩ = .ok initState ∧
    evalLoop (fun _ _ _ => "X") []
        ([⟨"koeged_a_1", some "B"⟩] ++ ⟨"koeged_1", some ""⟩ :: [⟨"kocsat_b_2", some "C"⟩])
        initState =
      evalLoop (fun _ _ _ => "X") []
        ([⟨"koeged_a_1", some "B"⟩] ++ [⟨"kocsat_b_2", some "C"⟩]) initState :=
  ⟨(empty_response_frame (fun _ _ _ => "X") [] ⟨"koeged_1", some ""⟩ rfl).1 initState,
   (empty_response_frame (fun _ _ _ => "X") [] ⟨"koeged_1", some ""⟩ rfl).2
     [⟨"koeged_a_1", some "B"⟩] [⟨"kocsat_b_2", some "C"⟩] initState⟩

/-! ### C10: the "meta" key collision -/

/-- C10.  Writing the tallies under the key `"meta"` overwrites any
per-item entry recorded for a submission whose id is exactly `"meta"`
(so the serialized output holds no judgement for it), while entries
under every other id are untouched and coexist with the tallies. -/
theorem meta_key_collision (st : EvalState) :
    dictFind (finalResult st) "meta" = some (Entry.meta st.scores) ∧
    (∀ e, ("meta", e) ∈ finalResult st → e = Entry.meta st.scores) ∧
    (∀ id, id ≠ "meta" → dictFind (finalResult st) id = dictFind st.result id) := by
  refine ⟨dictFind_dictInsert_self _ _ _, ?_, ?_⟩
  · intro e hmem
    exact mem_dictInsert_key _ _ _ _ hmem
  · intro id hne
    exact dictFind_dictInsert_ne _ _ _ _ hne

/-- Witness for C10 on a result that contains a per-item entry recorded
under the id `"meta"`. -/
theorem meta_key_collision_witness :
    dictFind (finalResult ⟨initScores, [("meta", Entry.item "a" "b" "c")]⟩) "meta" =
      some (Entry.meta initScores) ∧
    dictFind (finalResult ⟨initScores, [("meta", Entry.item "a" "b" "c")]⟩) "other" =
      dictFind [("meta", Entry.item "a" "b" "c")] "other" := by
  have h := meta_key_collision ⟨initScores, [("meta", Entry.item "a" "b" "c")]⟩
  exact ⟨h.1, h.2.2 "other" (by decide)⟩

/-! ### C8: guarded division -/

/-- C8.  With zero total attempts the overall accuracy is the literal 0
(the division branch is not taken), likewise per category; the division
branch is only taken when the divisor is nonzero. -/
theorem zero_attempts_zero_accuracy (scores : List (String × Tally)) :
    (total_count scores = 0 → konet_score scores = 0)
    ∧ (∀ c, (dictGetD scores c ⟨0, 0⟩).cnt = 0 → category_score scores c = 0)
    ∧ (total_count scores ≠ 0 →
        konet_score scores = 100 * (total_correct scores : Rat) / (total_count scores : Rat))
    ∧ (∀ c, (dictGetD scores c ⟨0, 0⟩).cnt ≠ 0 →
        category_score scores c =
          100 * ((dictGetD scores c ⟨0, 0⟩).acc : Rat) / ((dictGetD scores c ⟨0, 0⟩).cnt : Rat)) := by
  refine ⟨fun h => ?_, fun c h => ?_, fun h => ?_, fun c h => ?_⟩
  · simp [konet_score, h]
  · simp [category_score, h]
  · simp [konet_score, h]
  · simp [category_score, h]

/-- Witness for C8 on the fresh score table (no attempts) and on a
table with one attempt. -/
theorem zero_attempts_zero_accuracy_witness :
    konet_score initScores = 0 ∧
    category_score [("KoEGED", ⟨1, 2⟩)] "KoEGED" = 50 := by
  constructor
  · exact (zero_attempts_zero_accuracy initScores).1 rfl
  · have h := ((zero_attempts_zero_accuracy [("KoEGED", ⟨1, 2⟩)]).2.2.2) "KoEGED" (by decide)
    rw [h]
    norm_num [dictGetD]

end KoNET
